import Mathlib

/-!
Shallow embedding of `xperiments/Multimeter/multimeter.py`: a SCPI
command-string builder for a digital multimeter.  The module provides a
shared validator `_validate_param`, two dataclass command specs
(`MeasureVoltageDC` and `ConfigCurrentAC`) that validate their two fields in
`__post_init__` and enforce a cross-field rule, and a `command` method on
each that renders the SCPI command string.
-/

/-- A Python runtime value, restricted to the shapes the multimeter module
can receive: strings, ints, bools (in Python a subclass of `int`, so they
match the numeric pattern), floats, and a stand-in `none` for any value that
is neither numeric nor a string.  A float carries its numeric value as a
rational together with the string Python `str()` produces for it, since the
module only ever compares floats to zero and stringifies them. -/
inductive PyVal where
  | str (s : String)
  | int (n : Int)
  | bool (b : Bool)
  | float (q : Rat) (r : String)
  | none
deriving DecidableEq, Repr

/-- The character for a decimal digit, used to model Python `str()` on
integers. -/
def digitChar (d : Nat) : Char :=
  if d = 0 then '0' else if d = 1 then '1' else if d = 2 then '2'
  else if d = 3 then '3' else if d = 4 then '4' else if d = 5 then '5'
  else if d = 6 then '6' else if d = 7 then '7' else if d = 8 then '8'
  else '9'

/-- Decimal digits of a natural number, most significant first: the body of
Python `str()` on a nonnegative int. -/
def natDigits (n : Nat) : List Char :=
  if _h : n < 10 then [digitChar n]
  else natDigits (n / 10) ++ [digitChar (n % 10)]
decreasing_by exact Nat.div_lt_self (by omega) (by omega)

/-- Python `str()` of an int: decimal digits with a leading minus sign for
negative values. -/
def pyIntRepr (n : Int) : String :=
  if n < 0 then "-" ++ String.mk (natDigits n.natAbs)
  else String.mk (natDigits n.natAbs)

/-- Python `str()` on a `PyVal`; this is also the value interpolated into
the f-string error messages of `_validate_param`. -/
def pyStr : PyVal → String
  | .str s => s
  | .int n => pyIntRepr n
  | .bool b => if b then "True" else "False"
  | .float _ r => r
  | .none => "None"

/-- Python `str.upper()` restricted to ASCII input: uppercasing character by
character (the code only meaningfully uppercases ASCII keyword candidates). -/
def pyUpper (s : String) : String := String.mk (s.data.map Char.toUpper)

/-- `ALLOWED_KEYWORDS = {"MIN", "MAX", "DEF"}`. -/
def ALLOWED_KEYWORDS : List String := ["MIN", "MAX", "DEF"]

/-- Does the value match the Python pattern `int() | float()`?  Python
`bool` is a subclass of `int`, so `True` and `False` match as well. -/
def PyVal.isNumeric : PyVal → Bool
  | .int _ => true
  | .bool _ => true
  | .float _ _ => true
  | _ => false

/-- The guard `numeric > 0` of the numeric match case (`True` compares as
`1`, `False` as `0`). -/
def PyVal.posNum : PyVal → Bool
  | .int n => decide (0 < n)
  | .bool b => b
  | .float q _ => decide (0 < q)
  | _ => false

/-- `_validate_param`: the `case str(s)` arm uppercases the string and
checks membership in `ALLOWED_KEYWORDS`, raising
`ValueError(f"Invalid {name} parameter: {s}")` (with the uppercased `s`)
otherwise; the `case int() | float() as numeric if numeric > 0` arm returns
the numeric value unchanged; everything else — including numerics whose
`> 0` guard fails — falls through to the catch-all
`ValueError(f"Unexpected type for {name} parameter: {value}")`.  A raised
`ValueError` is modelled as `Except.error` carrying the message. -/
def validateParam (value : PyVal) (name : String) : Except String PyVal :=
  match value with
  | .str s =>
    let u := pyUpper s
    if ALLOWED_KEYWORDS.contains u then .ok (.str u)
    else .error ("Invalid " ++ name ++ " parameter: " ++ u)
  | v =>
    if v.isNumeric && v.posNum then .ok v
    else .error ("Unexpected type for " ++ name ++ " parameter: " ++ pyStr v)

/-- Python `isinstance(v, str) and v == "DEF"`.  This is also the truth
value of the bare comparison `v == "DEF"` used in `command`, since Python
equality between a non-string and `"DEF"` is `False`. -/
def PyVal.isDefStr : PyVal → Bool
  | .str s => s == "DEF"
  | _ => false

/-- The message of the cross-field `ValueError` raised in `__post_init__`
when a non-default resolution is given together with a default range. -/
def crossFieldMsg : String :=
  "Resolution specified without a valid (non-\x27DEF\x27) range."

/-- Python `sep.join(parts)`. -/
def joinWith (sep : String) : List String → String
  | [] => ""
  | [s] => s
  | s :: rest => s ++ sep ++ joinWith sep rest

/-- Python `.replace("/", ",")`: for a one-character pattern and a
one-character replacement, `str.replace` is exactly a character map. -/
def replaceSlashComma (s : String) : String :=
  String.mk (s.data.map fun c => if c == '/' then ',' else c)

/-- The `MeasureVoltageDC` dataclass: the fields as stored on the
instance. -/
structure MeasureVoltageDC where
  range : PyVal
  resolution : PyVal
deriving DecidableEq, Repr

/-- `MeasureVoltageDC.__post_init__`, embedded by threading the field
assignments: `self.range` is reassigned to its validated value, then
`self.resolution`, then the cross-field rule is checked; a raised exception
at any point aborts construction with that error. -/
def MeasureVoltageDC.postInit (c0 : MeasureVoltageDC) :
    Except String MeasureVoltageDC :=
  match validateParam c0.range "range" with
  | .error e => .error e
  | .ok r =>
    let c1 : MeasureVoltageDC := { c0 with range := r }
    match validateParam c1.resolution "resolution" with
    | .error e => .error e
    | .ok res =>
      let c2 : MeasureVoltageDC := { c1 with resolution := res }
      if c2.range.isDefStr && !c2.resolution.isDefStr then
        .error crossFieldMsg
      else .ok c2

/-- Constructing `MeasureVoltageDC(range, resolution)`: the dataclass
`__init__` stores the raw arguments, then `__post_init__` runs.  The caller
receives either the fully initialized instance or the raised error. -/
def MeasureVoltageDC.make (range resolution : PyVal) :
    Except String MeasureVoltageDC :=
  MeasureVoltageDC.postInit ⟨range, resolution⟩

/-- `MeasureVoltageDC.command`: the bare prefix when both fields compare
equal to `"DEF"`, otherwise the prefix, a space, and the non-`"DEF"` parts
joined with `"/"`, with every `"/"` then replaced by `","`. -/
def MeasureVoltageDC.command (c : MeasureVoltageDC) : String :=
  let base := "MEAS:VOLT:DC?"
  if c.range.isDefStr && c.resolution.isDefStr then base
  else
    let parts : List String :=
      (if !c.range.isDefStr then [pyStr c.range] else []) ++
      (if !c.resolution.isDefStr then [pyStr c.resolution] else [])
    replaceSlashComma (base ++ " " ++ joinWith "/" parts)

/-- The `ConfigCurrentAC` dataclass: the fields as stored on the
instance. -/
structure ConfigCurrentAC where
  range : PyVal
  resolution : PyVal
deriving DecidableEq, Repr

/-- `ConfigCurrentAC.__post_init__`: the same validation sequence as
`MeasureVoltageDC.__post_init__`, duplicated in the source. -/
def ConfigCurrentAC.postInit (c0 : ConfigCurrentAC) :
    Except String ConfigCurrentAC :=
  match validateParam c0.range "range" with
  | .error e => .error e
  | .ok r =>
    let c1 : ConfigCurrentAC := { c0 with range := r }
    match validateParam c1.resolution "resolution" with
    | .error e => .error e
    | .ok res =>
      let c2 : ConfigCurrentAC := { c1 with resolution := res }
      if c2.range.isDefStr && !c2.resolution.isDefStr then
        .error crossFieldMsg
      else .ok c2

/-- Constructing `ConfigCurrentAC(range, resolution)`. -/
def ConfigCurrentAC.make (range resolution : PyVal) :
    Except String ConfigCurrentAC :=
  ConfigCurrentAC.postInit ⟨range, resolution⟩

/-- `ConfigCurrentAC.command`: identical to `MeasureVoltageDC.command` up to
the literal prefix `"CONF:CURR:AC"`. -/
def ConfigCurrentAC.command (c : ConfigCurrentAC) : String :=
  let base := "CONF:CURR:AC"
  if c.range.isDefStr && c.resolution.isDefStr then base
  else
    let parts : List String :=
      (if !c.range.isDefStr then [pyStr c.range] else []) ++
      (if !c.resolution.isDefStr then [pyStr c.resolution] else [])
    replaceSlashComma (base ++ " " ++ joinWith "/" parts)

/-! ## Specification-side definitions (transcribed from the spec's wording) -/

/-- Spec-side: the per-field rejection condition: a string whose uppercased
form is not a recognized keyword, a numeric value that is not strictly
greater than zero (`True` counts as `1`, `False` as `0`), or a value that is
neither numeric nor a string. -/
def badParam : PyVal → Bool
  | .str s => !(ALLOWED_KEYWORDS.contains (pyUpper s))
  | .int n => decide (n ≤ 0)
  | .bool b => !b
  | .float q _ => decide (q ≤ 0)
  | .none => true

/-- Spec-side: the error message identifying the field name and the
offending value (the string case reports the uppercased form, as the code
formats it after normalization). -/
def paramErrMsg (name : String) (v : PyVal) : String :=
  match v with
  | .str s => "Invalid " ++ name ++ " parameter: " ++ pyUpper s
  | v => "Unexpected type for " ++ name ++ " parameter: " ++ pyStr v

/-- Spec-side: normalization of a valid parameter: strings are uppercased,
numeric values pass through unchanged. -/
def normalizeVal : PyVal → PyVal
  | .str s => .str (pyUpper s)
  | v => v

/-- Spec-side: does the raw input denote the `DEF` sentinel, i.e. is it a
string that normalizes to `"DEF"`? -/
def isDefInput : PyVal → Bool
  | .str s => pyUpper s == "DEF"
  | _ => false

/-- Does the string avoid the character `/`? -/
def noSlash (s : String) : Bool := s.data.all fun c => c != '/'

/-- Does a float value carry a `str()` form free of the character `/`?
Every representation Python actually produces for a float does; the model
carries the representation explicitly, so the fact becomes an explicit side
condition. -/
def PyVal.floatReprOk : PyVal → Bool
  | .float _ r => noSlash r
  | _ => true

/-- Spec-side: a fully validated, normalized field value: a keyword from
`ALLOWED_KEYWORDS` already in uppercase form, or a strictly positive
numeric. -/
def validField : PyVal → Bool
  | .str s => ALLOWED_KEYWORDS.contains s && (pyUpper s == s)
  | v => v.isNumeric && v.posNum

/-- Spec-side: a fully valid command spec: both fields validated and
normalized, and the cross-field rule satisfied. -/
def MeasureVoltageDC.validSpec (c : MeasureVoltageDC) : Bool :=
  validField c.range && validField c.resolution &&
    !(c.range.isDefStr && !c.resolution.isDefStr)

/-- Spec-side: the rendering described in the spec: the bare prefix when
both fields are `DEF`, otherwise the prefix, one space, and the string forms
of the non-`DEF` fields joined directly with `","`, range first. -/
def MeasureVoltageDC.commandComma (c : MeasureVoltageDC) : String :=
  if c.range.isDefStr && c.resolution.isDefStr then "MEAS:VOLT:DC?"
  else "MEAS:VOLT:DC?" ++ " " ++ joinWith ","
    ((if !c.range.isDefStr then [pyStr c.range] else []) ++
     (if !c.resolution.isDefStr then [pyStr c.resolution] else []))

/-- Spec-side: comma-join rendering of the current-AC variant. -/
def ConfigCurrentAC.commandComma (c : ConfigCurrentAC) : String :=
  if c.range.isDefStr && c.resolution.isDefStr then "CONF:CURR:AC"
  else "CONF:CURR:AC" ++ " " ++ joinWith ","
    ((if !c.range.isDefStr then [pyStr c.range] else []) ++
     (if !c.resolution.isDefStr then [pyStr c.resolution] else []))

/-- The `command` method as a state transformer: the method body only reads
`self.range` and `self.resolution` and assigns no attribute, so its
state-passing embedding returns the rendered string together with the
receiver it leaves behind. -/
def MeasureVoltageDC.commandRun (c : MeasureVoltageDC) :
    String × MeasureVoltageDC :=
  if c.range.isDefStr && c.resolution.isDefStr then ("MEAS:VOLT:DC?", c)
  else
    (replaceSlashComma ("MEAS:VOLT:DC?" ++ " " ++ joinWith "/"
      ((if !c.range.isDefStr then [pyStr c.range] else []) ++
       (if !c.resolution.isDefStr then [pyStr c.resolution] else []))), c)

/-- The field-preserving correspondence between the two dataclasses. -/
def MeasureVoltageDC.toConfig (c : MeasureVoltageDC) : ConfigCurrentAC :=
  ⟨c.range, c.resolution⟩

/-! ## Helper lemmas -/

theorem validateParam_eq (v : PyVal) (name : String) :
    validateParam v name =
      if badParam v then .error (paramErrMsg name v) else .ok (normalizeVal v) := by
  cases v <;>
    simp only [validateParam, badParam, paramErrMsg, normalizeVal,
      PyVal.isNumeric, PyVal.posNum, Bool.true_and, Bool.false_and,
      Bool.not_not] <;>
    split_ifs <;> simp_all <;> linarith

theorem isDefStr_normalizeVal (v : PyVal) :
    (normalizeVal v).isDefStr = isDefInput v := by
  cases v <;> simp [normalizeVal, PyVal.isDefStr, isDefInput]

theorem MeasureVoltageDC.make_eq (r s : PyVal) :
    MeasureVoltageDC.make r s =
      if badParam r then .error (paramErrMsg "range" r)
      else if badParam s then .error (paramErrMsg "resolution" s)
      else if isDefInput r && !isDefInput s then .error crossFieldMsg
      else .ok ⟨normalizeVal r, normalizeVal s⟩ := by
  unfold MeasureVoltageDC.make MeasureVoltageDC.postInit
  simp only [validateParam_eq]
  by_cases hr : badParam r <;> by_cases hs : badParam s <;>
    simp [hr, hs, isDefStr_normalizeVal]

theorem ConfigCurrentAC.cc_make_eq (r s : PyVal) :
    ConfigCurrentAC.make r s =
      if badParam r then .error (paramErrMsg "range" r)
      else if badParam s then .error (paramErrMsg "resolution" s)
      else if isDefInput r && !isDefInput s then .error crossFieldMsg
      else .ok ⟨normalizeVal r, normalizeVal s⟩ := by
  unfold ConfigCurrentAC.make ConfigCurrentAC.postInit
  simp only [validateParam_eq]
  by_cases hr : badParam r <;> by_cases hs : badParam s <;>
    simp [hr, hs, isDefStr_normalizeVal]

theorem map_noSlash (l : List Char) (h : ∀ c ∈ l, c ≠ '/') :
    l.map (fun c => if c == '/' then ',' else c) = l := by
  induction l with
  | nil => rfl
  | cons a t ih =>
    have ha : a ≠ '/' := h a (List.mem_cons_self a t)
    have ht := ih fun c hc => h c (List.mem_cons_of_mem a hc)
    simp only [List.map_cons, ht]
    congr 1
    simp [ha]

theorem noSlash_iff (s : String) : noSlash s = true ↔ ∀ c ∈ s.data, c ≠ '/' := by
  simp [noSlash, List.all_eq_true]

theorem replaceSlashComma_eq_self (s : String) (h : noSlash s = true) :
    replaceSlashComma s = s := by
  apply String.ext
  exact map_noSlash s.data ((noSlash_iff s).mp h)

theorem replaceSlashComma_append (a b : String) :
    replaceSlashComma (a ++ b) = replaceSlashComma a ++ replaceSlashComma b := by
  apply String.ext
  simp [replaceSlashComma, String.data_append]

theorem replaceSlashComma_joinWith (parts : List String)
    (h : ∀ p ∈ parts, noSlash p = true) :
    replaceSlashComma (joinWith "/" parts) = joinWith "," parts := by
  induction parts with
  | nil => rfl
  | cons s t ih =>
    cases t with
    | nil => exact replaceSlashComma_eq_self s (h s (by simp))
    | cons s2 rest =>
      have hs : noSlash s = true := h s (by simp)
      have ht : ∀ p ∈ s2 :: rest, noSlash p = true := fun p hp => h p (by simp [hp])
      calc replaceSlashComma (joinWith "/" (s :: s2 :: rest))
          = replaceSlashComma ((s ++ "/") ++ joinWith "/" (s2 :: rest)) := rfl
        _ = replaceSlashComma (s ++ "/") ++
              replaceSlashComma (joinWith "/" (s2 :: rest)) :=
            replaceSlashComma_append _ _
        _ = replaceSlashComma (s ++ "/") ++ joinWith "," (s2 :: rest) := by
            rw [ih ht]
        _ = (s ++ ",") ++ joinWith "," (s2 :: rest) := by
            rw [replaceSlashComma_append, replaceSlashComma_eq_self s hs]
            rfl
        _ = joinWith "," (s :: s2 :: rest) := rfl

theorem digitChar_ne_slash (d : Nat) : digitChar d ≠ '/' := by
  unfold digitChar
  split_ifs <;> decide

theorem natDigits_ne_slash (n : Nat) : ∀ c ∈ natDigits n, c ≠ '/' := by
  induction n using Nat.strong_induction_on with
  | _ n ih =>
    rw [natDigits]
    split
    · intro c hc
      simp only [List.mem_singleton] at hc
      subst hc
      exact digitChar_ne_slash n
    · intro c hc
      rw [List.mem_append] at hc
      rcases hc with hc | hc
      · exact ih (n / 10) (Nat.div_lt_self (by omega) (by omega)) c hc
      · simp only [List.mem_singleton] at hc
        subst hc
        exact digitChar_ne_slash (n % 10)

theorem noSlash_mk (l : List Char) (h : ∀ c ∈ l, c ≠ '/') :
    noSlash (String.mk l) = true := by
  simpa [noSlash, List.all_eq_true] using h

theorem noSlash_append (a b : String) :
    noSlash (a ++ b) = (noSlash a && noSlash b) := by
  simp [noSlash, String.data_append, List.all_append]

theorem pyIntRepr_noSlash (n : Int) : noSlash (pyIntRepr n) = true := by
  unfold pyIntRepr
  split_ifs
  · rw [noSlash_append]
    have h1 : noSlash "-" = true := by decide
    have h2 := noSlash_mk _ (natDigits_ne_slash n.natAbs)
    simp [h1, h2]
  · exact noSlash_mk _ (natDigits_ne_slash n.natAbs)

theorem keyword_cases (u : String) (h : ALLOWED_KEYWORDS.contains u = true) :
    u = "MIN" ∨ u = "MAX" ∨ u = "DEF" := by
  simpa [ALLOWED_KEYWORDS, List.contains_cons] using h

theorem noSlash_pyStr_valid (v : PyVal) (hv : badParam v = false)
    (hf : v.floatReprOk = true) :
    noSlash (pyStr (normalizeVal v)) = true := by
  cases v with
  | str s =>
    have hv2 : ALLOWED_KEYWORDS.contains (pyUpper s) = true := by
      simpa [badParam] using hv
    rcases keyword_cases _ hv2 with h | h | h <;>
      simp [normalizeVal, pyStr, h] <;> decide
  | int n => exact pyIntRepr_noSlash n
  | bool b =>
    cases b
    · simp [badParam] at hv
    · decide
  | float q r => simpa [PyVal.floatReprOk, normalizeVal, pyStr] using hf
  | none => simp [badParam] at hv

theorem validField_normalizeVal (v : PyVal) (hv : badParam v = false) :
    validField (normalizeVal v) = true := by
  cases v with
  | str s =>
    have hv2 : ALLOWED_KEYWORDS.contains (pyUpper s) = true := by
      simpa [badParam] using hv
    rcases keyword_cases _ hv2 with h | h | h <;>
      simp [normalizeVal, validField, h] <;> decide
  | int n =>
    simp only [badParam, decide_eq_false_iff_not, not_le] at hv
    simp [normalizeVal, validField, PyVal.isNumeric, PyVal.posNum, hv]
  | bool b =>
    cases b
    · simp [badParam] at hv
    · decide
  | float q r =>
    simp only [badParam, decide_eq_false_iff_not, not_le] at hv
    simp [normalizeVal, validField, PyVal.isNumeric, PyVal.posNum, hv]
  | none => simp [badParam] at hv

theorem MeasureVoltageDC.make_ok_inv (r s : PyVal) (c : MeasureVoltageDC)
    (h : MeasureVoltageDC.make r s = .ok c) :
    badParam r = false ∧ badParam s = false ∧
      (isDefInput r && !isDefInput s) = false ∧
      c = ⟨normalizeVal r, normalizeVal s⟩ := by
  rw [MeasureVoltageDC.make_eq] at h
  split_ifs at h with h1 h2 h3
  all_goals simp_all

theorem ConfigCurrentAC.cc_make_ok_inv (r s : PyVal) (c : ConfigCurrentAC)
    (h : ConfigCurrentAC.make r s = .ok c) :
    badParam r = false ∧ badParam s = false ∧
      (isDefInput r && !isDefInput s) = false ∧
      c = ⟨normalizeVal r, normalizeVal s⟩ := by
  rw [ConfigCurrentAC.cc_make_eq] at h
  split_ifs at h with h1 h2 h3
  all_goals simp_all

theorem string_append_assoc (a b c : String) : (a ++ b) ++ c = a ++ (b ++ c) := by
  apply String.ext
  simp [String.data_append]

theorem noSlash_replaceSlashComma (s : String) :
    noSlash (replaceSlashComma s) = true := by
  rw [noSlash_iff]
  intro c hc
  simp only [replaceSlashComma, List.mem_map] at hc
  obtain ⟨a, _, ha⟩ := hc
  subst ha
  by_cases h : a = '/'
  · subst h
    decide
  · simp [h]

theorem MeasureVoltageDC.command_eq_commandComma (c : MeasureVoltageDC)
    (h1 : noSlash (pyStr c.range) = true)
    (h2 : noSlash (pyStr c.resolution) = true) :
    c.command = c.commandComma := by
  simp only [MeasureVoltageDC.command, MeasureVoltageDC.commandComma]
  by_cases hd : (c.range.isDefStr && c.resolution.isDefStr) = true
  · rw [if_pos hd, if_pos hd]
  · rw [if_neg hd, if_neg hd]
    have hp : ∀ p ∈ ((if !c.range.isDefStr then [pyStr c.range] else []) ++
        (if !c.resolution.isDefStr then [pyStr c.resolution] else [])),
        noSlash p = true := by
      intro p hp
      rw [List.mem_append] at hp
      rcases hp with hp | hp
      · split at hp
        · simp only [List.mem_singleton] at hp
          exact hp ▸ h1
        · simp at hp
      · split at hp
        · simp only [List.mem_singleton] at hp
          exact hp ▸ h2
        · simp at hp
    rw [replaceSlashComma_append, replaceSlashComma_joinWith _ hp]
    congr 1

theorem ConfigCurrentAC.cc_command_eq_commandComma (c : ConfigCurrentAC)
    (h1 : noSlash (pyStr c.range) = true)
    (h2 : noSlash (pyStr c.resolution) = true) :
    c.command = c.commandComma := by
  simp only [ConfigCurrentAC.command, ConfigCurrentAC.commandComma]
  by_cases hd : (c.range.isDefStr && c.resolution.isDefStr) = true
  · rw [if_pos hd, if_pos hd]
  · rw [if_neg hd, if_neg hd]
    have hp : ∀ p ∈ ((if !c.range.isDefStr then [pyStr c.range] else []) ++
        (if !c.resolution.isDefStr then [pyStr c.resolution] else [])),
        noSlash p = true := by
      intro p hp
      rw [List.mem_append] at hp
      rcases hp with hp | hp
      · split at hp
        · simp only [List.mem_singleton] at hp
          exact hp ▸ h1
        · simp at hp
      · split at hp
        · simp only [List.mem_singleton] at hp
          exact hp ▸ h2
        · simp at hp
    rw [replaceSlashComma_append, replaceSlashComma_joinWith _ hp]
    congr 1

theorem MeasureVoltageDC.commandRun_eq (c : MeasureVoltageDC) :
    c.commandRun = (c.command, c) := by
  simp only [MeasureVoltageDC.commandRun, MeasureVoltageDC.command]
  split_ifs <;> rfl

theorem make_map_toConfig (r s : PyVal) :
    (MeasureVoltageDC.make r s).map MeasureVoltageDC.toConfig =
      ConfigCurrentAC.make r s := by
  rw [MeasureVoltageDC.make_eq, ConfigCurrentAC.cc_make_eq]
  split_ifs <;> rfl

theorem command_pair_split (c : MeasureVoltageDC) :
    ∃ rest, c.command = "MEAS:VOLT:DC?" ++ rest ∧
      c.toConfig.command = "CONF:CURR:AC" ++ rest := by
  by_cases hd : (c.range.isDefStr && c.resolution.isDefStr) = true
  · refine ⟨"", ?_, ?_⟩ <;>
      simp only [MeasureVoltageDC.command, ConfigCurrentAC.command,
        MeasureVoltageDC.toConfig, hd, if_true] <;> decide
  · refine ⟨replaceSlashComma (" " ++ joinWith "/"
      ((if !c.range.isDefStr then [pyStr c.range] else []) ++
       (if !c.resolution.isDefStr then [pyStr c.resolution] else []))), ?_, ?_⟩ <;>
      simp only [MeasureVoltageDC.command, ConfigCurrentAC.command,
        MeasureVoltageDC.toConfig, hd, if_false] <;>
      rw [string_append_assoc, replaceSlashComma_append] <;>
      congr 1

theorem data_append_ne_nil (a b : String) (ha : a.data ≠ []) :
    (a ++ b).data ≠ [] := by
  rw [String.data_append]
  intro h
  exact ha (List.append_eq_nil.mp h).1

theorem head_data_append (a b : String) (ha : a.data ≠ []) :
    (a ++ b).data.head? = a.data.head? := by
  rw [String.data_append]
  exact List.head?_append_of_ne_nil _ ha

theorem paramErrMsg_head (name : String) (v : PyVal) :
    (paramErrMsg name v).data.head? = some 'I' ∨
      (paramErrMsg name v).data.head? = some 'U' := by
  have hI : ("Invalid " : String).data ≠ [] := by decide
  have hU : ("Unexpected type for " : String).data ≠ [] := by decide
  cases v with
  | str s =>
    left
    simp only [paramErrMsg]
    rw [head_data_append _ _ (data_append_ne_nil _ _ (data_append_ne_nil _ _ hI)),
      head_data_append _ _ (data_append_ne_nil _ _ hI),
      head_data_append _ _ hI]
    decide
  | int n =>
    right
    simp only [paramErrMsg]
    rw [head_data_append _ _ (data_append_ne_nil _ _ (data_append_ne_nil _ _ hU)),
      head_data_append _ _ (data_append_ne_nil _ _ hU),
      head_data_append _ _ hU]
    decide
  | bool b =>
    right
    simp only [paramErrMsg]
    rw [head_data_append _ _ (data_append_ne_nil _ _ (data_append_ne_nil _ _ hU)),
      head_data_append _ _ (data_append_ne_nil _ _ hU),
      head_data_append _ _ hU]
    decide
  | float q r =>
    right
    simp only [paramErrMsg]
    rw [head_data_append _ _ (data_append_ne_nil _ _ (data_append_ne_nil _ _ hU)),
      head_data_append _ _ (data_append_ne_nil _ _ hU),
      head_data_append _ _ hU]
    decide
  | none =>
    right
    simp only [paramErrMsg]
    rw [head_data_append _ _ (data_append_ne_nil _ _ (data_append_ne_nil _ _ hU)),
      head_data_append _ _ (data_append_ne_nil _ _ hU),
      head_data_append _ _ hU]
    decide

theorem paramErrMsg_ne_crossFieldMsg (name : String) (v : PyVal) :
    paramErrMsg name v ≠ crossFieldMsg := by
  intro h
  have hR : crossFieldMsg.data.head? = some 'R' := by decide
  have hh := paramErrMsg_head name v
  rw [h, hR] at hh
  rcases hh with hh | hh <;> simp at hh

/-! ## Claim theorems -/

/-- C1: construction of a command spec (`MeasureVoltageDC` or
`ConfigCurrentAC`) raises `ValueError` if and only if a field is a string
whose uppercased form is not in `{MIN, MAX, DEF}`, or a numeric value that
is not strictly greater than zero, or neither numeric nor a string, or —
after both fields validate — the range is the `DEF` sentinel while the
resolution is not; the per-field error identifies the field name and
offending value (`paramErrMsg`), and for all other inputs construction
succeeds with the normalized fields. -/
theorem construct_invalidParameter_characterization (r s : PyVal) :
    MeasureVoltageDC.make r s =
      (if badParam r then .error (paramErrMsg "range" r)
       else if badParam s then .error (paramErrMsg "resolution" s)
       else if isDefInput r && !isDefInput s then .error crossFieldMsg
       else .ok ⟨normalizeVal r, normalizeVal s⟩) ∧
    ConfigCurrentAC.make r s =
      (if badParam r then .error (paramErrMsg "range" r)
       else if badParam s then .error (paramErrMsg "resolution" s)
       else if isDefInput r && !isDefInput s then .error crossFieldMsg
       else .ok ⟨normalizeVal r, normalizeVal s⟩) :=
  ⟨MeasureVoltageDC.make_eq r s, ConfigCurrentAC.cc_make_eq r s⟩

/-- C2: for every successfully constructed spec (whose float inputs carry
genuine, slash-free `str()` forms), `command` returns exactly the bare
prefix when both fields equal `"DEF"`, and otherwise the prefix, a single
space, and the string forms of the non-`"DEF"` fields joined by a comma,
range before resolution; in particular the spec's two concrete examples. -/
theorem measure_render_grammar :
    (∀ (r s : PyVal) (c : MeasureVoltageDC),
      MeasureVoltageDC.make r s = .ok c →
      r.floatReprOk = true → s.floatReprOk = true →
      c.command =
        if c.range.isDefStr && c.resolution.isDefStr then "MEAS:VOLT:DC?"
        else "MEAS:VOLT:DC?" ++ " " ++ joinWith ","
          ((if !c.range.isDefStr then [pyStr c.range] else []) ++
           (if !c.resolution.isDefStr then [pyStr c.resolution] else []))) ∧
    (MeasureVoltageDC.make (.float 10 "10.0") (.float (1/1000) "0.001")).map
        MeasureVoltageDC.command = .ok "MEAS:VOLT:DC? 10.0,0.001" ∧
    (MeasureVoltageDC.make (.str "DEF") (.str "DEF")).map
        MeasureVoltageDC.command = .ok "MEAS:VOLT:DC?" := by
  refine ⟨?_, ?_, ?_⟩
  · intro r s c hmk hfr hfs
    obtain ⟨hr, hs, _, hc⟩ := MeasureVoltageDC.make_ok_inv r s c hmk
    have h1 : noSlash (pyStr c.range) = true := by
      rw [hc]
      exact noSlash_pyStr_valid r hr hfr
    have h2 : noSlash (pyStr c.resolution) = true := by
      rw [hc]
      exact noSlash_pyStr_valid s hs hfs
    exact MeasureVoltageDC.command_eq_commandComma c h1 h2
  · have hmk : MeasureVoltageDC.make (.float 10 "10.0") (.float (1/1000) "0.001") =
        .ok ⟨.float 10 "10.0", .float (1/1000) "0.001"⟩ := by
      rw [MeasureVoltageDC.make_eq]
      have hq1 : badParam (.float 10 "10.0") = false := by
        simp only [badParam, decide_eq_false_iff_not, not_le]
        norm_num
      have hq2 : badParam (.float (1/1000) "0.001") = false := by
        simp only [badParam, decide_eq_false_iff_not, not_le]
        norm_num
      rw [hq1, hq2]
      rfl
    rw [hmk]
    rfl
  · rfl

/-- Witness for C2: the general rendering law applied to the constructed
spec `MeasureVoltageDC(range="min", resolution="DEF")`. -/
theorem measure_render_grammar_witness :
    MeasureVoltageDC.command ⟨.str "MIN", .str "DEF"⟩ =
      (if (PyVal.str "MIN").isDefStr && (PyVal.str "DEF").isDefStr then
        "MEAS:VOLT:DC?"
       else "MEAS:VOLT:DC?" ++ " " ++ joinWith ","
        ((if !(PyVal.str "MIN").isDefStr then [pyStr (.str "MIN")] else []) ++
         (if !(PyVal.str "DEF").isDefStr then [pyStr (.str "DEF")] else []))) :=
  measure_render_grammar.1 (.str "min") (.str "DEF") ⟨.str "MIN", .str "DEF"⟩
    (by rfl) (by decide) (by decide)

/-- C3: every string whose uppercased form is a recognized keyword validates
to that uppercased keyword (whatever the input letter case), and every
strictly positive numeric validates to itself unchanged. -/
theorem validate_normalizes_keywords_and_numerics :
    (∀ (s name : String), ALLOWED_KEYWORDS.contains (pyUpper s) = true →
      validateParam (.str s) name = .ok (.str (pyUpper s))) ∧
    (∀ (v : PyVal) (name : String), v.isNumeric = true → v.posNum = true →
      validateParam v name = .ok v) := by
  constructor
  · intro s name hs
    have hs2 : pyUpper s ∈ ALLOWED_KEYWORDS := by simpa using hs
    simp [validateParam, hs2]
  · intro v name h1 h2
    cases v <;> simp_all [validateParam, PyVal.isNumeric, PyVal.posNum]

/-- Witness for C3 at the lowercase keyword `"min"` and the positive
numeric `5`. -/
theorem validate_normalizes_keywords_and_numerics_witness :
    validateParam (.str "min") "range" = .ok (.str "MIN") ∧
    validateParam (.int 5) "resolution" = .ok (.int 5) :=
  ⟨validate_normalizes_keywords_and_numerics.1 "min" "range" (by decide),
   validate_normalizes_keywords_and_numerics.2 (.int 5) "resolution"
     (by decide) (by decide)⟩

/-- C4: per-field validation precedes the cross-field rule: an invalid
range is always reported with the range error, an invalid resolution (with
a valid range) with the resolution error, and these per-field messages are
never the cross-field message — even on inputs where the cross-field
condition would also hold. -/
theorem field_error_precedes_cross_field :
    (∀ r s : PyVal, badParam r = true →
      MeasureVoltageDC.make r s = .error (paramErrMsg "range" r) ∧
      ConfigCurrentAC.make r s = .error (paramErrMsg "range" r) ∧
      paramErrMsg "range" r ≠ crossFieldMsg) ∧
    (∀ r s : PyVal, badParam r = false → badParam s = true →
      MeasureVoltageDC.make r s = .error (paramErrMsg "resolution" s) ∧
      ConfigCurrentAC.make r s = .error (paramErrMsg "resolution" s) ∧
      paramErrMsg "resolution" s ≠ crossFieldMsg) := by
  constructor
  · intro r s hr
    refine ⟨?_, ?_, paramErrMsg_ne_crossFieldMsg _ _⟩
    · rw [MeasureVoltageDC.make_eq, if_pos hr]
    · rw [ConfigCurrentAC.cc_make_eq, if_pos hr]
  · intro r s hr hs
    refine ⟨?_, ?_, paramErrMsg_ne_crossFieldMsg _ _⟩
    · rw [MeasureVoltageDC.make_eq, if_neg (by simp [hr]), if_pos hs]
    · rw [ConfigCurrentAC.cc_make_eq, if_neg (by simp [hr]), if_pos hs]

/-- Witness for C4 at an invalid range keyword combined with a non-default
resolution, where the cross-field condition would also fire. -/
theorem field_error_precedes_cross_field_witness :
    MeasureVoltageDC.make (.str "volt") (.float (1/1000) "0.001") =
      .error "Invalid range parameter: VOLT" ∧
    paramErrMsg "range" (.str "volt") ≠ crossFieldMsg := by
  have h := field_error_precedes_cross_field.1 (.str "volt")
    (.float (1/1000) "0.001") (by decide)
  exact ⟨h.1, h.2.2⟩

/-- C5: the two command variants are behaviourally identical up to the
literal prefix: construction agrees pointwise (same error, or field-wise
identical result), every rendered pair shares its suffix after the two
prefixes, and the concrete current-AC example renders as specified. -/
theorem variants_differ_only_in_prefix :
    (∀ r s : PyVal, (MeasureVoltageDC.make r s).map MeasureVoltageDC.toConfig =
      ConfigCurrentAC.make r s) ∧
    (∀ c : MeasureVoltageDC, ∃ rest,
      c.command = "MEAS:VOLT:DC?" ++ rest ∧
      c.toConfig.command = "CONF:CURR:AC" ++ rest) ∧
    (ConfigCurrentAC.make (.str "min") (.str "max")).map ConfigCurrentAC.command =
      .ok "CONF:CURR:AC MIN,MAX" :=
  ⟨make_map_toConfig, command_pair_split, by rfl⟩

/-- C6: construction is atomic and the spec immutable: every constructed
instance is fully validated and normalized, the render method leaves the
receiver unchanged, and a caller receives either a fully valid instance or
only the raised error. -/
theorem construction_atomic_immutable :
    (∀ (r s : PyVal) (c : MeasureVoltageDC), MeasureVoltageDC.make r s = .ok c →
      c.validSpec = true ∧ c = ⟨normalizeVal r, normalizeVal s⟩) ∧
    (∀ c : MeasureVoltageDC, c.commandRun = (c.command, c)) ∧
    (∀ r s : PyVal,
      (∃ c, MeasureVoltageDC.make r s = .ok c ∧ c.validSpec = true) ∨
      (∃ e, MeasureVoltageDC.make r s = .error e)) := by
  have key : ∀ (r s : PyVal) (c : MeasureVoltageDC),
      MeasureVoltageDC.make r s = .ok c →
      c.validSpec = true ∧ c = ⟨normalizeVal r, normalizeVal s⟩ := by
    intro r s c hmk
    obtain ⟨hr, hs, hcross, hc⟩ := MeasureVoltageDC.make_ok_inv r s c hmk
    refine ⟨?_, hc⟩
    rw [hc]
    simp [MeasureVoltageDC.validSpec, validField_normalizeVal r hr,
      validField_normalizeVal s hs, isDefStr_normalizeVal, hcross]
  refine ⟨key, MeasureVoltageDC.commandRun_eq, ?_⟩
  intro r s
  cases hmk : MeasureVoltageDC.make r s with
  | ok c => exact Or.inl ⟨c, rfl, (key r s c hmk).1⟩
  | error e => exact Or.inr ⟨e, rfl⟩

/-- Witness for C6 at `MeasureVoltageDC(range="Min", resolution="def")`. -/
theorem construction_atomic_immutable_witness :
    MeasureVoltageDC.validSpec ⟨.str "MIN", .str "DEF"⟩ = true ∧
    (⟨.str "MIN", .str "DEF"⟩ : MeasureVoltageDC) =
      ⟨normalizeVal (.str "Min"), normalizeVal (.str "def")⟩ :=
  construction_atomic_immutable.1 (.str "Min") (.str "def")
    ⟨.str "MIN", .str "DEF"⟩ (by rfl)

/-- C7: render is deterministic and effect-free: `command` is a pure
function of the two fields — equal fields give equal output — and calling
it again on the receiver a call returns yields the identical string. -/
theorem render_pure_deterministic :
    (∀ c d : MeasureVoltageDC, c.range = d.range → c.resolution = d.resolution →
      c.command = d.command) ∧
    (∀ c : MeasureVoltageDC, (c.commandRun.2).command = c.commandRun.1) := by
  constructor
  · intro c d h1 h2
    cases c
    cases d
    simp_all
  · intro c
    rw [MeasureVoltageDC.commandRun_eq]

/-- Witness for C7 at a concrete spec with numeric fields. -/
theorem render_pure_deterministic_witness :
    MeasureVoltageDC.command ⟨.int 3, .int 5⟩ =
      MeasureVoltageDC.command ⟨.int 3, .int 5⟩ :=
  render_pure_deterministic.1 ⟨.int 3, .int 5⟩ ⟨.int 3, .int 5⟩ rfl rfl

/-- C8: the implementation's join-with-`"/"`-then-replace equals the direct
comma join for every constructible spec (float representations being
slash-free), and no rendered command string of either variant ever contains
the character `/`. -/
theorem join_slash_replace_refines_comma_join :
    (∀ (r s : PyVal) (c : MeasureVoltageDC),
      MeasureVoltageDC.make r s = .ok c →
      r.floatReprOk = true → s.floatReprOk = true →
      c.command = c.commandComma) ∧
    (∀ c : MeasureVoltageDC, noSlash c.command = true) ∧
    (∀ c : ConfigCurrentAC, noSlash c.command = true) := by
  refine ⟨?_, ?_, ?_⟩
  · intro r s c hmk hfr hfs
    obtain ⟨hr, hs, _, hc⟩ := MeasureVoltageDC.make_ok_inv r s c hmk
    have h1 : noSlash (pyStr c.range) = true := by
      rw [hc]
      exact noSlash_pyStr_valid r hr hfr
    have h2 : noSlash (pyStr c.resolution) = true := by
      rw [hc]
      exact noSlash_pyStr_valid s hs hfs
    exact MeasureVoltageDC.command_eq_commandComma c h1 h2
  · intro c
    simp only [MeasureVoltageDC.command]
    by_cases hd : (c.range.isDefStr && c.resolution.isDefStr) = true
    · rw [if_pos hd]
      decide
    · rw [if_neg hd]
      exact noSlash_replaceSlashComma _
  · intro c
    simp only [ConfigCurrentAC.command]
    by_cases hd : (c.range.isDefStr && c.resolution.isDefStr) = true
    · rw [if_pos hd]
      decide
    · rw [if_neg hd]
      exact noSlash_replaceSlashComma _

/-- Witness for C8 at `MeasureVoltageDC(range="max", resolution=2)`. -/
theorem join_slash_replace_refines_comma_join_witness :
    MeasureVoltageDC.command ⟨.str "MAX", .int 2⟩ =
      MeasureVoltageDC.commandComma ⟨.str "MAX", .int 2⟩ :=
  join_slash_replace_refines_comma_join.1 (.str "max") (.int 2)
    ⟨.str "MAX", .int 2⟩ (by rfl) (by decide) (by decide)

/-- C9: Python `True` matches the numeric branch (`bool` subclasses `int`)
and compares greater than zero, so it validates unchanged, and
`MeasureVoltageDC(range=True, resolution="DEF")` constructs successfully
and renders `"MEAS:VOLT:DC? True"`. -/
theorem bool_true_accepted_as_numeric :
    (∀ name : String, validateParam (.bool true) name = .ok (.bool true)) ∧
    (MeasureVoltageDC.make (.bool true) (.str "DEF")).map
        MeasureVoltageDC.command = .ok "MEAS:VOLT:DC? True" := by
  constructor
  · intro name
    rfl
  · rfl

/-- C10: a non-positive numeric fails the `> 0` guard of the numeric case
and falls through to the catch-all, producing the same
`"Unexpected type for {name} parameter: {value}"` diagnostic as a wrongly
typed value such as `None`. -/
theorem nonpositive_numeric_unexpected_type_msg :
    (∀ (v : PyVal) (name : String), v.isNumeric = true → v.posNum = false →
      validateParam v name =
        .error ("Unexpected type for " ++ name ++ " parameter: " ++ pyStr v)) ∧
    (∀ name : String, validateParam .none name =
      .error ("Unexpected type for " ++ name ++ " parameter: " ++ pyStr .none)) := by
  constructor
  · intro v name h1 h2
    cases v <;> simp_all [validateParam, PyVal.isNumeric, PyVal.posNum]
  · intro name
    rfl

/-- Witness for C10 at the non-positive numeric `0` for the range field. -/
theorem nonpositive_numeric_unexpected_type_msg_witness :
    validateParam (.int 0) "range" =
      .error "Unexpected type for range parameter: 0" := by
  have h := nonpositive_numeric_unexpected_type_msg.1 (.int 0) "range"
    (by decide) (by decide)
  rw [h]
  have h0 : natDigits 0 = ['0'] := by
    rw [natDigits]
    simp [digitChar]
  have h1 : pyStr (.int 0) = "0" := by
    simp [pyStr, pyIntRepr, h0]
  rw [h1]
  exact congrArg Except.error (by decide)
